import Mathlib

/-!
Shallow embedding of `src/model.py` (contagion simulation: `Point`, `Cell`,
`Model`) and proofs of the specification claims about it.

Modelling conventions:
* Python floats are modelled as rationals (`ℚ`); float arithmetic used by the
  program (add, subtract, multiply by `-1.0`, squaring) is exact sign-and-value
  arithmetic here.  The Euclidean distance `sqrt(...)` is modelled over `ℝ`;
  the executable contact test compares squared distance against the squared
  radius, and a proved lemma (`Point.distance_lt_iff`) shows this agrees with
  the source's `sqrt(d) < CELL_RADIUS` comparison whenever the radius is
  positive.
* Python's in-place mutation of `Cell` objects becomes explicit state passing:
  each method returns the updated cell (or pair of cells for `contact_with`,
  which may mutate either argument).
* The global random source (`random()`), consumed only by
  `Model.random_location` and `Model.random_direction` inside `Model.__init__`,
  is modelled as an oracle `draws : ℕ → Point × Point` giving cell `i`'s
  start location and start direction; `speed` only scales the drawn direction
  vector and is absorbed into the oracle.
* `Model.__init__`'s `raise ValueError` becomes `Except String Model`.
-/

namespace Contageon

/-- Modelled from the spec: the configuration-constants module
(`exercises.ex09.constants`, imported by `src/model.py`) is not among the
sources.  Per the spec it provides the spatial extent (`BOUNDS_WIDTH`,
`BOUNDS_HEIGHT`, `MIN_X`, `MAX_X`, `MIN_Y`, `MAX_Y`), the contact-trigger
distance `CELL_RADIUS`, the three health sentinel values `VULNERABLE`,
`INFECTED`, `IMMUNE`, and the `RECOVERY_PERIOD`.  The development is
parameterised over these values. -/
structure Constants where
  BOUNDS_WIDTH : ℚ
  BOUNDS_HEIGHT : ℚ
  MIN_X : ℚ
  MAX_X : ℚ
  MIN_Y : ℚ
  MAX_Y : ℚ
  CELL_RADIUS : ℚ
  VULNERABLE : ℤ
  INFECTED : ℤ
  IMMUNE : ℤ
  RECOVERY_PERIOD : ℤ
deriving DecidableEq, Repr

/-- Modelled from the spec: the constraints the constants module is required
to satisfy so that the spec's three sickness bands
(`sickness == VULNERABLE` → Susceptible,
`INFECTED <= sickness <= RECOVERY_PERIOD` → Infected,
`sickness == IMMUNE` → Immune) are disjoint and the infected band is
non-empty, and the contact radius is a positive distance with a non-degenerate
bounding rectangle. -/
abbrev Constants.Valid (C : Constants) : Prop :=
  C.IMMUNE < C.VULNERABLE ∧ C.VULNERABLE < C.INFECTED ∧
    C.INFECTED ≤ C.RECOVERY_PERIOD ∧ 0 < C.CELL_RADIUS ∧
    C.MIN_X < C.MAX_X ∧ C.MIN_Y < C.MAX_Y

/-- The reference constants used by the original exercise; any values
satisfying `Constants.Valid` work for the claims below. -/
def defaultC : Constants where
  BOUNDS_WIDTH := 400
  BOUNDS_HEIGHT := 400
  MIN_X := -200
  MAX_X := 200
  MIN_Y := -200
  MAX_Y := 200
  CELL_RADIUS := 15
  VULNERABLE := 0
  INFECTED := 1
  IMMUNE := -1
  RECOVERY_PERIOD := 40

/-- `Point` (src/model.py:12-30): a 2-d cartesian coordinate. -/
structure Point where
  x : ℚ
  y : ℚ
deriving DecidableEq, Repr

/-- `Point.add` (src/model.py:22-26): component-wise sum, returns a new
`Point`. -/
def Point.add (self other : Point) : Point :=
  { x := self.x + other.x, y := self.y + other.y }

/-- Squared Euclidean distance, the radicand of `Point.distance`
(src/model.py:30). -/
def Point.dist_sq (self other : Point) : ℚ :=
  (self.x - other.x) ^ 2 + (self.y - other.y) ^ 2

/-- `Point.distance` (src/model.py:28-30):
`sqrt((self.x - other.x) ** 2 + (self.y - other.y) ** 2)`, a pure function of
the two points. -/
noncomputable def Point.distance (self other : Point) : ℝ :=
  Real.sqrt (((self.x - other.x) ^ 2 + (self.y - other.y) ^ 2 : ℚ) : ℝ)

/-- `Cell` (src/model.py:33-90): location, direction, and the integer
sickness counter encoding the health state. -/
structure Cell where
  location : Point
  direction : Point
  sickness : ℤ
deriving DecidableEq, Repr

/-- `Cell.__init__` (src/model.py:39-42) together with the class-attribute
default `sickness: int = constants.VULNERABLE` (src/model.py:37). -/
def Cell.new (C : Constants) (location direction : Point) : Cell :=
  { location := location, direction := direction, sickness := C.VULNERABLE }

/-- `Cell.is_vulnerable` (src/model.py:69-71). -/
def Cell.is_vulnerable (C : Constants) (self : Cell) : Bool :=
  self.sickness = C.VULNERABLE

/-- `Cell.is_infected` (src/model.py:73-75): `sickness >= constants.INFECTED`. -/
def Cell.is_infected (C : Constants) (self : Cell) : Bool :=
  C.INFECTED ≤ self.sickness

/-- `Cell.is_immune` (src/model.py:88-90). -/
def Cell.is_immune (C : Constants) (self : Cell) : Bool :=
  self.sickness = C.IMMUNE

/-- `Cell.contract_disease` (src/model.py:65-67): set `sickness` to
`constants.INFECTED`. -/
def Cell.contract_disease (C : Constants) (self : Cell) : Cell :=
  { self with sickness := C.INFECTED }

/-- `Cell.immunize` (src/model.py:84-86): set `sickness` to
`constants.IMMUNE`. -/
def Cell.immunize (C : Constants) (self : Cell) : Cell :=
  { self with sickness := C.IMMUNE }

/-- `Cell.tick` (src/model.py:44-51): move by `direction`; if infected,
increment `sickness`; if `sickness` now exceeds `RECOVERY_PERIOD`,
immunize. -/
def Cell.tick (C : Constants) (self : Cell) : Cell :=
  let moved : Cell := { self with location := self.location.add self.direction }
  let counted : Cell :=
    if moved.is_infected C then { moved with sickness := moved.sickness + 1 }
    else moved
  if C.RECOVERY_PERIOD < counted.sickness then counted.immunize C else counted

/-- `Cell.contact_with` (src/model.py:77-82): the pair is
(updated `self`, updated `other`); Python mutates the two objects in place. -/
def Cell.contact_with (C : Constants) (self other : Cell) : Cell × Cell :=
  if self.is_infected C ∧ other.is_vulnerable C then
    (self, other.contract_disease C)
  else if other.is_infected C ∧ self.is_vulnerable C then
    (self.contract_disease C, other)
  else (self, other)

/-- `Model` (src/model.py:93-97): the population list and the time counter
(class-attribute default `time: int = 0`). -/
structure Model where
  population : List Cell
  time : ℤ
deriving DecidableEq, Repr

/-- The body of the construction loop (src/model.py:111-119) for index `i`:
draw a direction and a location, build the cell, then
`if i < initial_infections: contract_disease()` followed by
`if i < immune: immunize()`. -/
def Model.initCell (C : Constants) (initial_infections immune : ℤ)
    (draws : ℕ → Point × Point) (i : ℕ) : Cell :=
  let start_location : Point := (draws i).1
  let start_direction : Point := (draws i).2
  let cell : Cell := Cell.new C start_location start_direction
  let cell : Cell :=
    if (i : ℤ) < initial_infections then cell.contract_disease C else cell
  if (i : ℤ) < immune then cell.immunize C else cell

/-- `Model.__init__` (src/model.py:99-119): argument validation in source
order, then the population built by index.  `draws i` stands for the random
location and direction drawn for cell `i` (see module comment). -/
def Model.init (C : Constants) (cells : ℕ) (initial_infections : ℤ)
    (immune : ℤ) (draws : ℕ → Point × Point) : Except String Model :=
  if initial_infections ≤ 0 then
    .error "Some cells must be initially infected."
  else if (cells : ℤ) ≤ initial_infections then
    .error "Number of infected cells must be less than total number of cells."
  else if (cells : ℤ) ≤ immune then
    .error "Number of immune cells must be less than total number of cells."
  else if immune < 0 then
    .error "Number of immune cells must be zero or more."
  else
    .ok { population :=
            (List.range cells).map (Model.initCell C initial_infections immune draws),
          time := 0 }

/-- `Model.enforce_bounds` (src/model.py:142-147): negate `direction.x` when
`location.x` is beyond `MAX_X` or `MIN_X`, and independently `direction.y`
for the y bounds; the location itself is not modified. -/
def Model.enforce_bounds (C : Constants) (cell : Cell) : Cell :=
  let c1 : Cell :=
    if C.MAX_X < cell.location.x ∨ cell.location.x < C.MIN_X then
      { cell with direction := { cell.direction with x := cell.direction.x * -1 } }
    else cell
  if C.MAX_Y < c1.location.y ∨ c1.location.y < C.MIN_Y then
    { c1 with direction := { c1.direction with y := c1.direction.y * -1 } }
  else c1

/-- One iteration of the inner loop of `Model.check_contacts`
(src/model.py:160-163) at pair `(i, j)`: fetch the two cells and, when their
distance is below `CELL_RADIUS` (tested on squared values, see
`Point.distance_lt_iff`), write back `contact_with`'s updates. -/
def Model.resolvePair (C : Constants) (pop : List Cell) (ij : ℕ × ℕ) : List Cell :=
  match pop[ij.1]?, pop[ij.2]? with
  | some cell1, some cell2 =>
      if cell1.location.dist_sq cell2.location < C.CELL_RADIUS ^ 2 then
        (pop.set ij.1 (cell1.contact_with C cell2).1).set ij.2
          (cell1.contact_with C cell2).2
      else pop
  | _, _ => pop

/-- The index pairs visited by the two nested loops of `Model.check_contacts`
(src/model.py:158-159): `(i, j)` for `i` in `range(n)` and `j` in
`range(i + 1, n)`, in that (lexicographic) order. -/
def pairList (n : ℕ) : List (ℕ × ℕ) :=
  (List.range n).flatMap fun i =>
    (List.range' (i + 1) (n - (i + 1))).map fun j => (i, j)

/-- `Model.check_contacts` (src/model.py:156-163): fold the pair updates over
the population, in pair order, so updates by earlier pairs are seen by later
pairs. -/
def Model.check_contacts (C : Constants) (m : Model) : Model :=
  { m with population :=
      (pairList m.population.length).foldl (Model.resolvePair C) m.population }

/-- `Model.tick` (src/model.py:121-127): increment `time`; for each cell in
population order run `Cell.tick` then `enforce_bounds`; then
`check_contacts`. -/
def Model.tick (C : Constants) (m : Model) : Model :=
  Model.check_contacts C
    { population :=
        m.population.map fun cell => Model.enforce_bounds C (cell.tick C),
      time := m.time + 1 }

/-- `Model.is_complete` (src/model.py:149-154): no cell is infected. -/
def Model.is_complete (C : Constants) (m : Model) : Bool :=
  m.population.all fun cell => ! cell.is_infected C

/-- Iterating `Model.tick` (the driver loop calling `advance()` repeatedly). -/
def Model.advanceN (C : Constants) : ℕ → Model → Model
  | 0, m => m
  | n + 1, m => Model.advanceN C n (Model.tick C m)

/-- The model states reachable by the program: a successful construction
followed by any number of `tick` steps. -/
inductive Model.Reachable (C : Constants) : Model → Prop where
  | init (cells : ℕ) (initial_infections immune : ℤ)
      (draws : ℕ → Point × Point) (m : Model)
      (h : Model.init C cells initial_infections immune draws = .ok m) :
      Model.Reachable C m
  | step (m : Model) (h : Model.Reachable C m) :
      Model.Reachable C (Model.tick C m)

/-- Strict lexicographic order on index pairs, the order in which
`check_contacts` visits them. -/
def lexLt (p q : ℕ × ℕ) : Prop :=
  p.1 < q.1 ∨ (p.1 = q.1 ∧ p.2 < q.2)

/-- The sickness counter sits in one of the spec's three bands. -/
def Cell.healthOK (C : Constants) (self : Cell) : Prop :=
  self.sickness = C.VULNERABLE ∨
    (C.INFECTED ≤ self.sickness ∧ self.sickness ≤ C.RECOVERY_PERIOD) ∨
    self.sickness = C.IMMUNE

/-! ### Basic lemmas about the cell operations -/

theorem enforce_bounds_location (C : Constants) (cell : Cell) :
    (Model.enforce_bounds C cell).location = cell.location := by
  unfold Model.enforce_bounds
  by_cases hx : C.MAX_X < cell.location.x ∨ cell.location.x < C.MIN_X <;>
    by_cases hy : C.MAX_Y < cell.location.y ∨ cell.location.y < C.MIN_Y <;>
    simp [hx, hy]

theorem enforce_bounds_sickness (C : Constants) (cell : Cell) :
    (Model.enforce_bounds C cell).sickness = cell.sickness := by
  unfold Model.enforce_bounds
  by_cases hx : C.MAX_X < cell.location.x ∨ cell.location.x < C.MIN_X <;>
    by_cases hy : C.MAX_Y < cell.location.y ∨ cell.location.y < C.MIN_Y <;>
    simp [hx, hy]

theorem enforce_bounds_direction_x (C : Constants) (cell : Cell) :
    (Model.enforce_bounds C cell).direction.x =
      (if C.MAX_X < cell.location.x ∨ cell.location.x < C.MIN_X then
        -cell.direction.x else cell.direction.x) := by
  unfold Model.enforce_bounds
  by_cases hx : C.MAX_X < cell.location.x ∨ cell.location.x < C.MIN_X <;>
    by_cases hy : C.MAX_Y < cell.location.y ∨ cell.location.y < C.MIN_Y <;>
    simp [hx, hy]

theorem enforce_bounds_direction_y (C : Constants) (cell : Cell) :
    (Model.enforce_bounds C cell).direction.y =
      (if C.MAX_Y < cell.location.y ∨ cell.location.y < C.MIN_Y then
        -cell.direction.y else cell.direction.y) := by
  unfold Model.enforce_bounds
  by_cases hx : C.MAX_X < cell.location.x ∨ cell.location.x < C.MIN_X <;>
    by_cases hy : C.MAX_Y < cell.location.y ∨ cell.location.y < C.MIN_Y <;>
    simp [hx, hy]

theorem contact_with_cases (C : Constants) (a b : Cell) :
    Cell.contact_with C a b = (a, b) ∨
      (Cell.contact_with C a b = (a, b.contract_disease C) ∧
        a.is_infected C = true ∧ b.is_vulnerable C = true) ∨
      (Cell.contact_with C a b = (a.contract_disease C, b) ∧
        b.is_infected C = true ∧ a.is_vulnerable C = true) := by
  unfold Cell.contact_with
  by_cases h1 : a.is_infected C ∧ b.is_vulnerable C
  · have ha : a.is_infected C = true := by simpa using h1.1
    have hb : b.is_vulnerable C = true := by simpa using h1.2
    exact Or.inr (Or.inl ⟨by simp [h1], ha, hb⟩)
  · by_cases h2 : b.is_infected C ∧ a.is_vulnerable C
    · have hb : b.is_infected C = true := by simpa using h2.1
      have ha : a.is_vulnerable C = true := by simpa using h2.2
      exact Or.inr (Or.inr ⟨by simp [h1, h2], hb, ha⟩)
    · exact Or.inl (by simp [h1, h2])

theorem immune_not_infected (C : Constants) (hC : C.Valid) (c : Cell)
    (h : c.sickness = C.IMMUNE) : c.is_infected C = false := by
  obtain ⟨h1, h2, -⟩ := hC
  simp [Cell.is_infected, h]
  omega

theorem immune_not_vulnerable (C : Constants) (hC : C.Valid) (c : Cell)
    (h : c.sickness = C.IMMUNE) : c.is_vulnerable C = false := by
  obtain ⟨h1, -⟩ := hC
  simp [Cell.is_vulnerable, h]
  omega

theorem vulnerable_not_infected (C : Constants) (hC : C.Valid) (c : Cell)
    (h : c.is_vulnerable C = true) : c.is_infected C = false := by
  obtain ⟨-, h2, -⟩ := hC
  simp [Cell.is_vulnerable] at h
  simp [Cell.is_infected, h]
  omega

theorem contact_with_immune (C : Constants) (hC : C.Valid) (a b : Cell)
    (h : a.sickness = C.IMMUNE ∨ b.sickness = C.IMMUNE) :
    Cell.contact_with C a b = (a, b) := by
  rcases contact_with_cases C a b with hc | ⟨hc, ha, hb⟩ | ⟨hc, hb, ha⟩
  · exact hc
  · rcases h with h | h
    · rw [immune_not_infected C hC a h] at ha; cases ha
    · rw [immune_not_vulnerable C hC b h] at hb; cases hb
  · rcases h with h | h
    · rw [immune_not_vulnerable C hC a h] at ha; cases ha
    · rw [immune_not_infected C hC b h] at hb; cases hb

theorem contact_with_fst_infected (C : Constants) (hC : C.Valid) (a b : Cell)
    (h : a.is_infected C = true) : (Cell.contact_with C a b).1 = a := by
  rcases contact_with_cases C a b with hc | ⟨hc, -, -⟩ | ⟨hc, -, ha⟩
  · rw [hc]
  · rw [hc]
  · rw [vulnerable_not_infected C hC a ha] at h; cases h

theorem contact_with_snd_infected (C : Constants) (hC : C.Valid) (a b : Cell)
    (h : b.is_infected C = true) : (Cell.contact_with C a b).2 = b := by
  rcases contact_with_cases C a b with hc | ⟨hc, -, hb⟩ | ⟨hc, -, -⟩
  · rw [hc]
  · rw [vulnerable_not_infected C hC b hb] at h; cases h
  · rw [hc]

theorem tick_sickness_of_not_infected (C : Constants) (c : Cell)
    (h : c.is_infected C = false) (h2 : ¬ C.RECOVERY_PERIOD < c.sickness) :
    (Cell.tick C c).sickness = c.sickness := by
  unfold Cell.tick
  simp only [Cell.is_infected] at h ⊢
  simp [show ¬ C.INFECTED ≤ c.sickness by simpa using h, h2]

theorem tick_sickness_vulnerable (C : Constants) (hC : C.Valid) (c : Cell)
    (h : c.sickness = C.VULNERABLE) : (Cell.tick C c).sickness = C.VULNERABLE := by
  obtain ⟨-, h2, h3, -⟩ := hC
  rw [tick_sickness_of_not_infected C c ?_ ?_]
  · exact h
  · simp [Cell.is_infected, h]; omega
  · omega

theorem tick_sickness_immune (C : Constants) (hC : C.Valid) (c : Cell)
    (h : c.sickness = C.IMMUNE) : (Cell.tick C c).sickness = C.IMMUNE := by
  obtain ⟨h1, h2, h3, -⟩ := hC
  rw [tick_sickness_of_not_infected C c ?_ ?_]
  · exact h
  · simp [Cell.is_infected, h]; omega
  · omega

theorem tick_sickness_infected (C : Constants) (c : Cell)
    (h : c.is_infected C = true) :
    (Cell.tick C c).sickness =
      (if C.RECOVERY_PERIOD < c.sickness + 1 then C.IMMUNE else c.sickness + 1) := by
  simp only [Cell.is_infected, decide_eq_true_eq] at h
  unfold Cell.tick
  simp only [Cell.is_infected, Cell.immunize]
  by_cases h2 : C.RECOVERY_PERIOD < c.sickness + 1 <;> simp [h, h2]

theorem tick_healthOK (C : Constants) (hC : C.Valid) (c : Cell)
    (h : c.healthOK C) : (Cell.tick C c).healthOK C := by
  rcases h with h | ⟨ha, hb⟩ | h
  · exact Or.inl (tick_sickness_vulnerable C hC c h)
  · have hinf : c.is_infected C = true := by
      simp only [Cell.is_infected, decide_eq_true_eq]; omega
    unfold Cell.healthOK
    rw [tick_sickness_infected C c hinf]
    by_cases hr : C.RECOVERY_PERIOD < c.sickness + 1
    · rw [if_pos hr]; exact Or.inr (Or.inr rfl)
    · rw [if_neg hr]
      obtain ⟨-, -, h3, -⟩ := hC
      exact Or.inr (Or.inl ⟨by omega, by omega⟩)
  · exact Or.inr (Or.inr (tick_sickness_immune C hC c h))

theorem contract_disease_healthOK (C : Constants) (hC : C.Valid) (c : Cell) :
    (Cell.contract_disease C c).healthOK C := by
  obtain ⟨-, -, h3, -⟩ := hC
  exact Or.inr (Or.inl ⟨le_refl _, h3⟩)

theorem contact_with_healthOK (C : Constants) (hC : C.Valid) (a b : Cell)
    (ha : a.healthOK C) (hb : b.healthOK C) :
    (Cell.contact_with C a b).1.healthOK C ∧
      (Cell.contact_with C a b).2.healthOK C := by
  rcases contact_with_cases C a b with hc | ⟨hc, -, -⟩ | ⟨hc, -, -⟩ <;> rw [hc]
  · exact ⟨ha, hb⟩
  · exact ⟨ha, contract_disease_healthOK C hC b⟩
  · exact ⟨contract_disease_healthOK C hC a, hb⟩

theorem enforce_bounds_healthOK (C : Constants) (c : Cell)
    (h : c.healthOK C) : (Model.enforce_bounds C c).healthOK C := by
  unfold Cell.healthOK at h ⊢
  rw [enforce_bounds_sickness]
  exact h

/-! ### The contact test: squared comparison agrees with the source's
`sqrt(...) < CELL_RADIUS` -/

theorem Point.distance_eq_sqrt_dist_sq (a b : Point) :
    Point.distance a b = Real.sqrt ((Point.dist_sq a b : ℚ) : ℝ) := rfl

theorem Point.dist_sq_nonneg (a b : Point) : 0 ≤ Point.dist_sq a b :=
  add_nonneg (sq_nonneg _) (sq_nonneg _)

theorem Point.distance_lt_iff (r : ℚ) (hr : 0 < r) (a b : Point) :
    Point.distance a b < (r : ℝ) ↔ Point.dist_sq a b < r ^ 2 := by
  rw [Point.distance_eq_sqrt_dist_sq, Real.sqrt_lt' (by exact_mod_cast hr)]
  exact_mod_cast Iff.rfl

/-! ### The pair scan -/

theorem mem_pairList (n i j : ℕ) : (i, j) ∈ pairList n ↔ i < j ∧ j < n := by
  unfold pairList
  rw [List.mem_flatMap]
  constructor
  · rintro ⟨k, hk, hm⟩
    rw [List.mem_map] at hm
    obtain ⟨j', hj', he⟩ := hm
    obtain ⟨he1, he2⟩ := Prod.mk.injEq .. ▸ he
    rw [List.mem_range'_1] at hj'
    rw [List.mem_range] at hk
    omega
  · rintro ⟨hij, hj⟩
    refine ⟨i, List.mem_range.mpr (by omega), List.mem_map.mpr ⟨j, ?_, rfl⟩⟩
    rw [List.mem_range'_1]
    omega

theorem pairList_pairwise (n : ℕ) : List.Pairwise lexLt (pairList n) := by
  unfold pairList
  rw [List.flatMap_def, List.pairwise_flatten]
  constructor
  · intro l hl
    rw [List.mem_map] at hl
    obtain ⟨i, -, rfl⟩ := hl
    rw [List.pairwise_map]
    refine List.Pairwise.imp ?_ (List.pairwise_lt_range' (i + 1) (n - (i + 1)))
    intro a b hab
    exact Or.inr ⟨rfl, hab⟩
  · rw [List.pairwise_map]
    refine List.Pairwise.imp ?_ (List.pairwise_lt_range n)
    intro a b hab p hp q hq
    rw [List.mem_map] at hp hq
    obtain ⟨-, -, rfl⟩ := hp
    obtain ⟨-, -, rfl⟩ := hq
    exact Or.inl hab

/-! ### The pair-update step of `check_contacts` -/

theorem lt_length_of_getElem?_eq_some {α : Type} {l : List α} {n : ℕ} {a : α}
    (h : l[n]? = some a) : n < l.length :=
  (List.getElem?_eq_some.mp h).1

theorem resolvePair_immune_at (C : Constants) (hC : C.Valid) (pop : List Cell)
    (ij : ℕ × ℕ) (k : ℕ) (c : Cell) (hk : pop[k]? = some c)
    (hc : c.sickness = C.IMMUNE) :
    ∃ c', (Model.resolvePair C pop ij)[k]? = some c' ∧
      c'.sickness = C.IMMUNE := by
  unfold Model.resolvePair
  cases h1 : pop[ij.1]? with
  | none => exact ⟨c, hk, hc⟩
  | some c1 =>
    cases h2 : pop[ij.2]? with
    | none => exact ⟨c, hk, hc⟩
    | some c2 =>
      dsimp only
      by_cases hd : c1.location.dist_sq c2.location < C.CELL_RADIUS ^ 2
      · rw [if_pos hd]
        by_cases hk2 : k = ij.2
        · have hc2 : c2.sickness = C.IMMUNE := by
            rw [hk2, h2] at hk
            rw [Option.some.inj hk]
            exact hc
          have hlen : ij.2 < (pop.set ij.1 (c1.contact_with C c2).1).length := by
            rw [List.length_set]
            exact lt_length_of_getElem?_eq_some h2
          refine ⟨(c1.contact_with C c2).2, ?_, ?_⟩
          · rw [hk2]
            exact List.getElem?_set_self hlen
          · rw [contact_with_immune C hC c1 c2 (Or.inr hc2)]
            exact hc2
        · by_cases hk1 : k = ij.1
          · have hc1 : c1.sickness = C.IMMUNE := by
              rw [hk1, h1] at hk
              rw [Option.some.inj hk]
              exact hc
            refine ⟨(c1.contact_with C c2).1, ?_, ?_⟩
            · rw [hk1] at hk2 ⊢
              rw [List.getElem?_set_ne fun he => hk2 he.symm]
              exact List.getElem?_set_self (lt_length_of_getElem?_eq_some h1)
            · rw [contact_with_immune C hC c1 c2 (Or.inl hc1)]
              exact hc1
          · refine ⟨c, ?_, hc⟩
            rw [List.getElem?_set_ne fun he => hk2 he.symm,
              List.getElem?_set_ne fun he => hk1 he.symm]
            exact hk
      · rw [if_neg hd]
        exact ⟨c, hk, hc⟩

theorem foldl_resolvePair_immune (C : Constants) (hC : C.Valid)
    (pairs : List (ℕ × ℕ)) :
    ∀ (pop : List Cell) (k : ℕ) (c : Cell), pop[k]? = some c →
      c.sickness = C.IMMUNE →
      ∃ c', (pairs.foldl (Model.resolvePair C) pop)[k]? = some c' ∧
        c'.sickness = C.IMMUNE := by
  induction pairs with
  | nil => exact fun pop k c hk hc => ⟨c, hk, hc⟩
  | cons p ps ih =>
    intro pop k c hk hc
    obtain ⟨c', h1, h2⟩ := resolvePair_immune_at C hC pop p k c hk hc
    exact ih (Model.resolvePair C pop p) k c' h1 h2

theorem resolvePair_healthOK (C : Constants) (hC : C.Valid) (pop : List Cell)
    (ij : ℕ × ℕ) (h : ∀ c ∈ pop, c.healthOK C) :
    ∀ c ∈ Model.resolvePair C pop ij, c.healthOK C := by
  unfold Model.resolvePair
  cases h1 : pop[ij.1]? with
  | none => exact h
  | some c1 =>
    cases h2 : pop[ij.2]? with
    | none => exact h
    | some c2 =>
      dsimp only
      by_cases hd : c1.location.dist_sq c2.location < C.CELL_RADIUS ^ 2
      · rw [if_pos hd]
        intro c hcm
        rcases List.mem_or_eq_of_mem_set hcm with hcm2 | rfl
        · rcases List.mem_or_eq_of_mem_set hcm2 with hcm3 | rfl
          · exact h c hcm3
          · exact (contact_with_healthOK C hC c1 c2
              (h c1 (List.getElem?_mem h1)) (h c2 (List.getElem?_mem h2))).1
        · exact (contact_with_healthOK C hC c1 c2
            (h c1 (List.getElem?_mem h1)) (h c2 (List.getElem?_mem h2))).2
      · rw [if_neg hd]
        exact h

theorem foldl_resolvePair_healthOK (C : Constants) (hC : C.Valid)
    (pairs : List (ℕ × ℕ)) :
    ∀ pop : List Cell, (∀ c ∈ pop, c.healthOK C) →
      ∀ c ∈ pairs.foldl (Model.resolvePair C) pop, c.healthOK C := by
  induction pairs with
  | nil => exact fun pop h => h
  | cons p ps ih =>
    exact fun pop h => ih (Model.resolvePair C pop p)
      (resolvePair_healthOK C hC pop p h)

theorem tick_model_healthOK (C : Constants) (hC : C.Valid) (m : Model)
    (h : ∀ c ∈ m.population, c.healthOK C) :
    ∀ c ∈ (Model.tick C m).population, c.healthOK C := by
  unfold Model.tick Model.check_contacts
  apply foldl_resolvePair_healthOK C hC
  intro c hc
  rw [List.mem_map] at hc
  obtain ⟨c0, hc0, rfl⟩ := hc
  exact enforce_bounds_healthOK C _ (tick_healthOK C hC c0 (h c0 hc0))

/-! ### Construction -/

theorem initCell_sickness (C : Constants) (ii immune : ℤ)
    (draws : ℕ → Point × Point) (i : ℕ) :
    (Model.initCell C ii immune draws i).sickness =
      (if (i : ℤ) < immune then C.IMMUNE
       else if (i : ℤ) < ii then C.INFECTED else C.VULNERABLE) := by
  unfold Model.initCell Cell.new Cell.contract_disease Cell.immunize
  by_cases h1 : (i : ℤ) < ii <;> by_cases h2 : (i : ℤ) < immune <;>
    simp [h1, h2]

theorem initCell_location (C : Constants) (ii immune : ℤ)
    (draws : ℕ → Point × Point) (i : ℕ) :
    (Model.initCell C ii immune draws i).location = (draws i).1 := by
  unfold Model.initCell Cell.new Cell.contract_disease Cell.immunize
  by_cases h1 : (i : ℤ) < ii <;> by_cases h2 : (i : ℤ) < immune <;>
    simp [h1, h2]

theorem initCell_direction (C : Constants) (ii immune : ℤ)
    (draws : ℕ → Point × Point) (i : ℕ) :
    (Model.initCell C ii immune draws i).direction = (draws i).2 := by
  unfold Model.initCell Cell.new Cell.contract_disease Cell.immunize
  by_cases h1 : (i : ℤ) < ii <;> by_cases h2 : (i : ℤ) < immune <;>
    simp [h1, h2]

theorem init_ok_iff (C : Constants) (cells : ℕ) (ii immune : ℤ)
    (draws : ℕ → Point × Point) (m : Model) :
    Model.init C cells ii immune draws = .ok m ↔
      (0 < ii ∧ ii < (cells : ℤ) ∧ 0 ≤ immune ∧ immune < (cells : ℤ) ∧
        m = { population :=
                (List.range cells).map (Model.initCell C ii immune draws),
              time := 0 }) := by
  unfold Model.init
  split_ifs with g1 g2 g3 g4
  · exact iff_of_false (by simp) fun hr => by
      obtain ⟨ha, hb, hc, hd, -⟩ := hr; omega
  · exact iff_of_false (by simp) fun hr => by
      obtain ⟨ha, hb, hc, hd, -⟩ := hr; omega
  · exact iff_of_false (by simp) fun hr => by
      obtain ⟨ha, hb, hc, hd, -⟩ := hr; omega
  · exact iff_of_false (by simp) fun hr => by
      obtain ⟨ha, hb, hc, hd, -⟩ := hr; omega
  · simp only [Except.ok.injEq]
    constructor
    · intro he
      exact ⟨by omega, by omega, by omega, by omega, he.symm⟩
    · intro hr
      exact hr.2.2.2.2.symm

theorem reachable_healthOK (C : Constants) (hC : C.Valid) (m : Model)
    (hm : Model.Reachable C m) : ∀ c ∈ m.population, c.healthOK C := by
  induction hm with
  | init cells ii immune draws m h =>
    obtain ⟨-, -, -, -, rfl⟩ := (init_ok_iff C cells ii immune draws m).mp h
    intro c hc
    rw [List.mem_map] at hc
    obtain ⟨i, -, rfl⟩ := hc
    unfold Cell.healthOK
    rw [initCell_sickness]
    obtain ⟨-, -, h3, -⟩ := hC
    by_cases h1 : (i : ℤ) < immune <;> by_cases h2 : (i : ℤ) < ii <;>
      simp [h1, h2, h3, le_refl]
  | step m hm ih => exact tick_model_healthOK C hC m ih

theorem healthOK_infected_band (C : Constants) (hC : C.Valid) (c : Cell)
    (h : c.healthOK C) :
    c.is_infected C = true ↔
      (C.INFECTED ≤ c.sickness ∧ c.sickness ≤ C.RECOVERY_PERIOD) := by
  obtain ⟨h1, h2, h3, -⟩ := hC
  simp only [Cell.is_infected, decide_eq_true_eq]
  rcases h with h | ⟨ha, hb⟩ | h <;> constructor <;> intro hx <;> omega

theorem infected_not_vulnerable (C : Constants) (hC : C.Valid) (c : Cell)
    (h : c.is_infected C = true) : c.is_vulnerable C = false := by
  obtain ⟨-, h2, -⟩ := hC
  simp only [Cell.is_infected, decide_eq_true_eq] at h
  simp only [Cell.is_vulnerable, decide_eq_false_iff_not]
  omega

/-! ### Claims -/

/-- **C1**: each `advance()` (`Model.tick`) increments the tick counter by 1,
then maps `Cell.tick` followed by `enforce_bounds` over the population in
order, and only afterwards scans all pairs `(i, j)` with `i < j` in increasing
lexicographic order, applying `contact_with` to a pair exactly when the
Euclidean distance between the two locations is strictly below the contact
radius; the scan is a left fold, so health changes by earlier pairs are seen
by later pairs of the same scan. -/
theorem c1_advance_order (C : Constants) (hC : C.Valid) (m : Model) :
    (Model.tick C m).time = m.time + 1 ∧
    Model.tick C m =
      Model.check_contacts C
        { population :=
            m.population.map fun cell => Model.enforce_bounds C (cell.tick C),
          time := m.time + 1 } ∧
    (∀ m' : Model,
      Model.check_contacts C m' =
        { m' with population :=
            ((pairList m'.population.length).foldl (Model.resolvePair C)
              m'.population) }) ∧
    (∀ n i j : ℕ, (i, j) ∈ pairList n ↔ i < j ∧ j < n) ∧
    List.Pairwise lexLt (pairList m.population.length) ∧
    (∀ (pop : List Cell) (i j : ℕ) (c1 c2 : Cell),
      pop[i]? = some c1 → pop[j]? = some c2 →
      (Point.distance c1.location c2.location < (C.CELL_RADIUS : ℝ) →
        Model.resolvePair C pop (i, j) =
          (pop.set i (c1.contact_with C c2).1).set j (c1.contact_with C c2).2) ∧
      (¬ Point.distance c1.location c2.location < (C.CELL_RADIUS : ℝ) →
        Model.resolvePair C pop (i, j) = pop)) := by
  refine ⟨rfl, rfl, fun m' => rfl, mem_pairList, pairList_pairwise _, ?_⟩
  intro pop i j c1 c2 h1 h2
  have hb := Point.distance_lt_iff C.CELL_RADIUS hC.2.2.2.1 c1.location c2.location
  constructor
  · intro hlt
    unfold Model.resolvePair
    dsimp only
    rw [h1, h2]
    dsimp only
    rw [if_pos (hb.mp hlt)]
  · intro hge
    unfold Model.resolvePair
    dsimp only
    rw [h1, h2]
    dsimp only
    rw [if_neg fun hq => hge (hb.mpr hq)]

theorem c1_advance_order_check :
    (Model.tick defaultC
        { population := [{ location := { x := 0, y := 0 },
                           direction := { x := 1, y := 0 }, sickness := 0 }],
          time := 0 }).time = 0 + 1 :=
  (c1_advance_order defaultC (by decide) _).1

/-- **C2**: health transitions only forward.  Under `Cell.tick` a Susceptible
cell stays Susceptible; an Infected cell's counter increases by exactly 1, and
when that exceeds the recovery period the cell becomes Immune on the same
tick; an Immune cell stays Immune under `tick`, under `contact_with` (which is
a no-op when either side is Immune), and at its index through a whole
simulation step; and an Infected cell never returns to Susceptible (its entry
is unchanged by `contact_with`, and `tick` leaves it Infected or Immune). -/
theorem c2_health_monotone (C : Constants) (hC : C.Valid) :
    (∀ c : Cell, c.is_vulnerable C = true → (c.tick C).is_vulnerable C = true) ∧
    (∀ c : Cell, c.is_infected C = true → c.sickness ≤ C.RECOVERY_PERIOD →
      ((c.sickness + 1 ≤ C.RECOVERY_PERIOD →
        (c.tick C).sickness = c.sickness + 1 ∧ (c.tick C).is_infected C = true) ∧
       (C.RECOVERY_PERIOD < c.sickness + 1 → (c.tick C).is_immune C = true))) ∧
    (∀ c : Cell, c.is_immune C = true → (c.tick C).is_immune C = true) ∧
    (∀ c : Cell, c.is_infected C = true → (c.tick C).is_vulnerable C = false) ∧
    (∀ a b : Cell, a.is_immune C = true ∨ b.is_immune C = true →
      Cell.contact_with C a b = (a, b)) ∧
    (∀ a b : Cell, a.is_infected C = true → (Cell.contact_with C a b).1 = a) ∧
    (∀ a b : Cell, b.is_infected C = true → (Cell.contact_with C a b).2 = b) ∧
    (∀ (m : Model) (k : ℕ) (c : Cell), m.population[k]? = some c →
      c.is_immune C = true →
      ∃ c', (Model.tick C m).population[k]? = some c' ∧
        c'.is_immune C = true) := by
  refine ⟨?_, ?_, ?_, ?_, ?_, ?_, ?_, ?_⟩
  · intro c hc
    simp only [Cell.is_vulnerable, decide_eq_true_eq] at hc ⊢
    rw [tick_sickness_vulnerable C hC c hc]
  · intro c hc hr
    simp only [Cell.is_infected, decide_eq_true_eq] at hc
    constructor
    · intro hr1
      have := tick_sickness_infected C c (by
        simp only [Cell.is_infected, decide_eq_true_eq]; exact hc)
      rw [if_neg (by omega)] at this
      refine ⟨this, ?_⟩
      simp only [Cell.is_infected, decide_eq_true_eq, this]
      omega
    · intro hr1
      have := tick_sickness_infected C c (by
        simp only [Cell.is_infected, decide_eq_true_eq]; exact hc)
      rw [if_pos hr1] at this
      simp only [Cell.is_immune, decide_eq_true_eq, this]
  · intro c hc
    simp only [Cell.is_immune, decide_eq_true_eq] at hc ⊢
    rw [tick_sickness_immune C hC c hc]
  · intro c hc
    simp only [Cell.is_infected, decide_eq_true_eq] at hc
    have := tick_sickness_infected C c (by
      simp only [Cell.is_infected, decide_eq_true_eq]; exact hc)
    simp only [Cell.is_vulnerable, decide_eq_false_iff_not, this]
    by_cases hr : C.RECOVERY_PERIOD < c.sickness + 1
    · rw [if_pos hr]; omega
    · rw [if_neg hr]; omega
  · intro a b hab
    apply contact_with_immune C hC
    rcases hab with h | h
    · exact Or.inl (by simpa [Cell.is_immune] using h)
    · exact Or.inr (by simpa [Cell.is_immune] using h)
  · exact fun a b => contact_with_fst_infected C hC a b
  · exact fun a b => contact_with_snd_infected C hC a b
  · intro m k c hk hc
    have hc' : c.sickness = C.IMMUNE := by simpa [Cell.is_immune] using hc
    have hmap :
        (m.population.map fun cell =>
          Model.enforce_bounds C (cell.tick C))[k]? =
          some (Model.enforce_bounds C (c.tick C)) := by
      rw [List.getElem?_map, hk]
      rfl
    have himm : (Model.enforce_bounds C (c.tick C)).sickness = C.IMMUNE := by
      rw [enforce_bounds_sickness]
      exact tick_sickness_immune C hC c hc'
    obtain ⟨c', h1, h2⟩ := foldl_resolvePair_immune C hC _ _ k _ hmap himm
    exact ⟨c', h1, by simpa [Cell.is_immune] using h2⟩

theorem c2_health_monotone_check :
    (Cell.tick defaultC
        { location := { x := 0, y := 0 }, direction := { x := 1, y := 1 },
          sickness := -1 }).is_immune defaultC = true :=
  (c2_health_monotone defaultC (by decide)).2.2.1 _ (by decide)

/-- **C3**: `contact_with` transfers the disease to exactly the Susceptible
side of an Infected/Susceptible pair (setting its counter to the
infected-start value) and leaves the other side unchanged; on
Susceptible/Susceptible, Infected/Infected, and any pair involving an Immune
cell it changes nothing; at most one side changes per call. -/
theorem c3_contact_rules (C : Constants) (hC : C.Valid) (a b : Cell) :
    (a.is_infected C = true → b.is_vulnerable C = true →
      Cell.contact_with C a b = (a, b.contract_disease C) ∧
        (b.contract_disease C).sickness = C.INFECTED) ∧
    (b.is_infected C = true → a.is_vulnerable C = true →
      Cell.contact_with C a b = (a.contract_disease C, b) ∧
        (a.contract_disease C).sickness = C.INFECTED) ∧
    (a.is_vulnerable C = true → b.is_vulnerable C = true →
      Cell.contact_with C a b = (a, b)) ∧
    (a.is_infected C = true → b.is_infected C = true →
      Cell.contact_with C a b = (a, b)) ∧
    (a.is_immune C = true ∨ b.is_immune C = true →
      Cell.contact_with C a b = (a, b)) ∧
    ((Cell.contact_with C a b).1 = a ∨ (Cell.contact_with C a b).2 = b) := by
  refine ⟨?_, ?_, ?_, ?_, ?_, ?_⟩
  · intro ha hb
    exact ⟨by simp [Cell.contact_with, ha, hb], rfl⟩
  · intro hb ha
    have ha' : a.is_infected C = false := vulnerable_not_infected C hC a ha
    exact ⟨by simp [Cell.contact_with, ha, hb, ha'], rfl⟩
  · intro ha hb
    have ha' : a.is_infected C = false := vulnerable_not_infected C hC a ha
    have hb' : b.is_infected C = false := vulnerable_not_infected C hC b hb
    simp [Cell.contact_with, ha', hb']
  · intro ha hb
    have ha' : a.is_vulnerable C = false := infected_not_vulnerable C hC a ha
    have hb' : b.is_vulnerable C = false := infected_not_vulnerable C hC b hb
    simp [Cell.contact_with, ha', hb']
  · intro hab
    apply contact_with_immune C hC
    rcases hab with h | h
    · exact Or.inl (by simpa [Cell.is_immune] using h)
    · exact Or.inr (by simpa [Cell.is_immune] using h)
  · rcases contact_with_cases C a b with hc | ⟨hc, -, -⟩ | ⟨hc, -, -⟩ <;>
      rw [hc]
    · exact Or.inl rfl
    · exact Or.inl rfl
    · exact Or.inr rfl

theorem c3_contact_rules_check :
    Cell.contact_with defaultC
        { location := { x := 0, y := 0 }, direction := { x := 0, y := 0 },
          sickness := 3 }
        { location := { x := 1, y := 0 }, direction := { x := 0, y := 0 },
          sickness := 0 } =
      ({ location := { x := 0, y := 0 }, direction := { x := 0, y := 0 },
         sickness := 3 },
       { location := { x := 1, y := 0 }, direction := { x := 0, y := 0 },
         sickness := 1 }) :=
  ((c3_contact_rules defaultC (by decide) _ _).1 (by decide) (by decide)).1

/-- **C4**: a successful construction yields exactly `cells` particles, and
cell `i` (creation order) starts Immune when `i < immune` (the immune
assignment runs after the infected one and overrides it on overlapping low
indices), Infected when `immune ≤ i < initial_infections`, and Susceptible
otherwise; its location and direction are the drawn ones. -/
theorem c4_init_population (C : Constants) (cells : ℕ) (ii immune : ℤ)
    (draws : ℕ → Point × Point) (m : Model)
    (h : Model.init C cells ii immune draws = .ok m) :
    m.population.length = cells ∧
    ∀ i : ℕ, i < cells →
      ∃ cell : Cell, m.population[i]? = some cell ∧
        cell.location = (draws i).1 ∧ cell.direction = (draws i).2 ∧
        cell.sickness =
          (if (i : ℤ) < immune then C.IMMUNE
           else if (i : ℤ) < ii then C.INFECTED else C.VULNERABLE) := by
  obtain ⟨-, -, -, -, rfl⟩ := (init_ok_iff C cells ii immune draws m).mp h
  constructor
  · simp
  · intro i hi
    refine ⟨Model.initCell C ii immune draws i, ?_, initCell_location .. ,
      initCell_direction .. , initCell_sickness ..⟩
    rw [List.getElem?_map, List.getElem?_range hi]
    rfl

theorem c4_init_population_check :
    ({ population :=
         [{ location := { x := 0, y := 0 }, direction := { x := 0, y := 0 },
            sickness := 1 },
          { location := { x := 0, y := 0 }, direction := { x := 0, y := 0 },
            sickness := 0 }],
       time := 0 } : Model).population.length = 2 :=
  (c4_init_population defaultC 2 1 0
    (fun _ => ({ x := 0, y := 0 }, { x := 0, y := 0 })) _ rfl).1

/-- **C5**: construction fails exactly when `initial_infections ≤ 0`, or
`initial_infections ≥ cells`, or `immune < 0`, or `immune ≥ cells`; the
failure is an `error` result so no model is produced, and every valid
argument combination succeeds. -/
theorem c5_init_validation (C : Constants) (cells : ℕ) (ii immune : ℤ)
    (draws : ℕ → Point × Point) :
    ((∃ e, Model.init C cells ii immune draws = .error e) ↔
      (ii ≤ 0 ∨ (cells : ℤ) ≤ ii ∨ immune < 0 ∨ (cells : ℤ) ≤ immune)) ∧
    ((∃ m, Model.init C cells ii immune draws = .ok m) ↔
      (0 < ii ∧ ii < (cells : ℤ) ∧ 0 ≤ immune ∧ immune < (cells : ℤ))) := by
  constructor
  · unfold Model.init
    split_ifs with g1 g2 g3 g4 <;> simp <;> omega
  · constructor
    · rintro ⟨m, hm⟩
      obtain ⟨h1, h2, h3, h4, -⟩ :=
        (init_ok_iff C cells ii immune draws m).mp hm
      exact ⟨h1, h2, h3, h4⟩
    · rintro ⟨h1, h2, h3, h4⟩
      exact ⟨_, (init_ok_iff C cells ii immune draws _).mpr
        ⟨h1, h2, h3, h4, rfl⟩⟩

/-- **C6**: for every particle of a reachable model state, `is_infected`
returns true exactly when the sickness counter lies in the Infected band
`INFECTED ≤ sickness ≤ RECOVERY_PERIOD`. -/
theorem c6_infected_band (C : Constants) (hC : C.Valid) (m : Model)
    (hm : Model.Reachable C m) (c : Cell) (hc : c ∈ m.population) :
    c.is_infected C = true ↔
      (C.INFECTED ≤ c.sickness ∧ c.sickness ≤ C.RECOVERY_PERIOD) :=
  healthOK_infected_band C hC c (reachable_healthOK C hC m hm c hc)

theorem c6_infected_band_check :
    (Cell.is_infected defaultC
        { location := { x := 0, y := 0 }, direction := { x := 0, y := 0 },
          sickness := 1 } = true ↔
      (defaultC.INFECTED ≤ (1 : ℤ) ∧ (1 : ℤ) ≤ defaultC.RECOVERY_PERIOD)) :=
  c6_infected_band defaultC (by decide)
    { population :=
        [{ location := { x := 0, y := 0 }, direction := { x := 0, y := 0 },
           sickness := 1 },
         { location := { x := 0, y := 0 }, direction := { x := 0, y := 0 },
           sickness := 0 }],
      time := 0 }
    (Model.Reachable.init 2 1 0
      (fun _ => ({ x := 0, y := 0 }, { x := 0, y := 0 })) _ rfl)
    _ (by decide)

/-- **C7**: `enforce_bounds` negates the x-velocity exactly when the x
position is out of the x bounds, independently the same for y, and never
touches the position or the sickness counter. -/
theorem c7_enforce_bounds_frame (C : Constants) (cell : Cell) :
    (Model.enforce_bounds C cell).location = cell.location ∧
    (Model.enforce_bounds C cell).sickness = cell.sickness ∧
    (Model.enforce_bounds C cell).direction.x =
      (if C.MAX_X < cell.location.x ∨ cell.location.x < C.MIN_X then
        -cell.direction.x else cell.direction.x) ∧
    (Model.enforce_bounds C cell).direction.y =
      (if C.MAX_Y < cell.location.y ∨ cell.location.y < C.MIN_Y then
        -cell.direction.y else cell.direction.y) :=
  ⟨enforce_bounds_location C cell, enforce_bounds_sickness C cell,
    enforce_bounds_direction_x C cell, enforce_bounds_direction_y C cell⟩

/-- **C8**: the Euclidean distance is non-negative, symmetric, zero on equal
points, and zero only on equal points. -/
theorem c8_distance_props (a b : Point) :
    0 ≤ Point.distance a b ∧
    Point.distance a b = Point.distance b a ∧
    Point.distance a a = 0 ∧
    (Point.distance a b = 0 ↔ a = b) := by
  refine ⟨Real.sqrt_nonneg _, ?_, ?_, ?_⟩
  · unfold Point.distance
    congr 1
    push_cast
    ring
  · simp [Point.distance, sub_self]
  · rw [Point.distance_eq_sqrt_dist_sq, Real.sqrt_eq_zero']
    constructor
    · intro hle
      have h0 : Point.dist_sq a b = 0 :=
        le_antisymm (by exact_mod_cast hle) (Point.dist_sq_nonneg a b)
      unfold Point.dist_sq at h0
      obtain ⟨hx, hy⟩ :=
        (add_eq_zero_iff_of_nonneg (sq_nonneg _) (sq_nonneg _)).mp h0
      have hx' : a.x = b.x := sub_eq_zero.mp (sq_eq_zero_iff.mp hx)
      have hy' : a.y = b.y := sub_eq_zero.mp (sq_eq_zero_iff.mp hy)
      cases a
      cases b
      simp_all
    · rintro rfl
      simp [Point.dist_sq, sub_self]

/-- **C9**: `enforce_bounds` looks only at the position: an out-of-bounds
component's velocity is negated unconditionally, so applying it twice to a
cell whose position is unchanged restores the original velocity (in fact it
is an involution on the whole cell state), and thus it is not idempotent at
any cell it actually changes. -/
theorem c9_reflection_undone (C : Constants) :
    (∀ cell : Cell,
      Model.enforce_bounds C (Model.enforce_bounds C cell) = cell) ∧
    (∀ cell : Cell, (C.MAX_X < cell.location.x ∨ cell.location.x < C.MIN_X) →
      (Model.enforce_bounds C cell).direction.x = -cell.direction.x) ∧
    (∀ cell : Cell, (C.MAX_Y < cell.location.y ∨ cell.location.y < C.MIN_Y) →
      (Model.enforce_bounds C cell).direction.y = -cell.direction.y) ∧
    (∀ cell : Cell, Model.enforce_bounds C cell ≠ cell →
      Model.enforce_bounds C (Model.enforce_bounds C cell) ≠
        Model.enforce_bounds C cell) := by
  have hinv : ∀ cell : Cell,
      Model.enforce_bounds C (Model.enforce_bounds C cell) = cell := by
    intro cell
    obtain ⟨⟨lx, ly⟩, ⟨dx, dy⟩, s⟩ := cell
    unfold Model.enforce_bounds
    by_cases hx : C.MAX_X < lx ∨ lx < C.MIN_X <;>
      by_cases hy : C.MAX_Y < ly ∨ ly < C.MIN_Y <;>
      simp [hx, hy, mul_neg_one]
  refine ⟨hinv, ?_, ?_, ?_⟩
  · intro cell h
    rw [enforce_bounds_direction_x, if_pos h]
  · intro cell h
    rw [enforce_bounds_direction_y, if_pos h]
  · intro cell h
    rw [hinv cell]
    exact fun he => h he.symm

theorem c9_reflection_undone_check :
    (Model.enforce_bounds defaultC
        { location := { x := 300, y := 0 }, direction := { x := 5, y := 7 },
          sickness := 0 }).direction.x = -5 :=
  (c9_reflection_undone defaultC).2.1 _ (by decide)

/-- **C10**: after construction the engine is deterministic: two models with
equal populations and equal time produce equal states after any number of
`advance()` steps, and agree on `is_complete`; the step functions draw no
randomness. -/
theorem c10_deterministic (C : Constants) (n : ℕ) (m1 m2 : Model)
    (hpop : m1.population = m2.population) (htime : m1.time = m2.time) :
    Model.advanceN C n m1 = Model.advanceN C n m2 ∧
    Model.is_complete C m1 = Model.is_complete C m2 := by
  obtain ⟨p1, t1⟩ := m1
  obtain ⟨p2, t2⟩ := m2
  have hp : p1 = p2 := hpop
  have ht : t1 = t2 := htime
  subst hp
  subst ht
  exact ⟨rfl, rfl⟩

theorem c10_deterministic_check :
    Model.advanceN defaultC 2
        { population :=
            [{ location := { x := 0, y := 0 }, direction := { x := 1, y := 0 },
               sickness := 1 }],
          time := 0 } =
      Model.advanceN defaultC 2
        { population :=
            [{ location := { x := 0, y := 0 }, direction := { x := 1, y := 0 },
               sickness := 1 }],
          time := 0 } :=
  (c10_deterministic defaultC 2 _ _ rfl rfl).1

end Contageon
